import Mathlib

/-!
Verification of the `ts-results-es` library's `Result` / `Option` containers,
their collection combinators (`all`, `any`, `wrap`, `wrapAsync`) and the
`AsyncResult` asynchronous wrapper, shallowly embedded from
`src/result.ts` (and its newer copy with the record overload of `all`)
and the `AsyncResult` class.

Modelling conventions:
- A `Result<T, E>` value is the two-variant inductive `TS.Result`.  The
  `ErrImpl` class additionally captures a call-stack string at construction
  time; it is used only to build diagnostic messages and is not modelled.
- A thrown JavaScript `Error` whose `cause` option is set is modelled by
  `TS.JSError`, carrying only the machine-readable `cause` (the message is a
  diagnostic string rendering plus the captured stack, both non-semantic).
- Operations that may throw return `Except` (`.error` = a thrown value).
- A JavaScript promise settles exactly once, to a fulfilment value or a
  rejection reason; it is modelled by `TS.Promise`, with `TS.Promise.then'`
  giving the `.then` chaining semantics (a rejected promise passes through,
  a fulfilled one feeds the continuation, whose result is adopted).
- A plain key-value record (as consumed via `Object.entries`) is modelled by
  its entry list `List (String × _)` in insertion order (a JS object's keys
  are distinct, but no theorem below needs that).
- TypeScript union error types such as `E | E2` collapse to a single Lean
  type parameter `E`; the claims under study do not distinguish the two.
-/

namespace TS

/-- The `Result<T, E>` union of `OkImpl` / `ErrImpl` from `result.ts`. -/
inductive Result (T E : Type) where
  | Ok : T → Result T E
  | Err : E → Result T E
  deriving DecidableEq, Repr

/-- A thrown `Error` with its `cause` option set (the message string and the
captured stack are diagnostic only and not modelled). -/
structure JSError (C : Type) where
  cause : C
  deriving DecidableEq, Repr

/-- `OkImpl.isOk` / `ErrImpl.isOk`. -/
def Result.isOk {T E : Type} : Result T E → Bool
  | .Ok _ => true
  | .Err _ => false

/-- `OkImpl.isErr` / `ErrImpl.isErr`. -/
def Result.isErr {T E : Type} : Result T E → Bool
  | .Ok _ => false
  | .Err _ => true

/-- `unwrap()`: `OkImpl.unwrap` returns `this.value`; `ErrImpl.unwrap` throws
`new Error(msg, \x7b cause: this.error \x7d)`. -/
def Result.unwrap {T E : Type} : Result T E → Except (JSError E) T
  | .Ok v => .ok v
  | .Err e => .error ⟨e⟩

/-- `unwrapErr()`: `ErrImpl.unwrapErr` returns `this.error`; `OkImpl.unwrapErr`
throws `new Error(msg, \x7b cause: this.value \x7d)`. -/
def Result.unwrapErr {T E : Type} : Result T E → Except (JSError T) E
  | .Ok v => .error ⟨v⟩
  | .Err e => .ok e

/-- `map(mapper)`: `OkImpl.map` returns `new Ok(mapper(this.value))`;
`ErrImpl.map` returns `this` unchanged. -/
def Result.map {T E U : Type} (mapper : T → U) : Result T E → Result U E
  | .Ok v => .Ok (mapper v)
  | .Err e => .Err e

/-- `andThen(mapper)`: `OkImpl.andThen` returns `mapper(this.value)`;
`ErrImpl.andThen` returns `this` unchanged. -/
def Result.andThen {T E U : Type} (mapper : T → Result U E) : Result T E → Result U E
  | .Ok v => mapper v
  | .Err e => .Err e

/-- The `Option<T>` union of `SomeImpl` / the `None` singleton (its source
file is not under `src/`; the shape is fixed by the `Result.toOption`
signature and the spec's presence/absence container). -/
inductive Option (T : Type) where
  | Some : T → Option T
  | None : Option T
  deriving DecidableEq, Repr

/-- `toOption()`: `OkImpl.toOption` returns `Some(this.value)`;
`ErrImpl.toOption` returns `None`. -/
def Result.toOption {T E : Type} : Result T E → Option T
  | .Ok v => .Some v
  | .Err _ => .None

/-- Modelled from the spec: the presence/absence container's source file
(`option.ts`) is not under `src/`.  Spec §4.2: `toResult(failureValue)`:
present → success(payload); absent → failure(failureValue). -/
def Option.toResult {T E : Type} (o : Option T) (error : E) : Result T E :=
  match o with
  | .Some v => .Ok v
  | .None => .Err error

/-- The loop body of the array branch of `Result.all`: pushes each `Ok`
value onto `okResult` and returns the first `Err` unchanged. -/
def Result.allLoop {T E : Type} : List (Result T E) → List T → Result (List T) E
  | [], okResult => .Ok okResult
  | .Ok v :: rest, okResult => Result.allLoop rest (okResult ++ [v])
  | .Err e :: _, _ => .Err e

/-- `Result.all` (array overload): short-circuits with the first `Err`,
otherwise wraps the collected `Ok` values. -/
def Result.all {T E : Type} (results : List (Result T E)) : Result (List T) E :=
  Result.allLoop results []

/-- The loop of the record branch of `Result.all`: walks `Object.entries`,
filling `okResult` and `errResult` and tracking `hasErr`. -/
def Result.allRecordLoop {T E : Type} :
    List (String × Result T E) → List (String × T) → List (String × E) → Bool →
      Result (List (String × T)) (List (String × E))
  | [], okResult, errResult, hasErr => if hasErr then .Err errResult else .Ok okResult
  | (key, .Ok v) :: rest, okResult, errResult, hasErr =>
      Result.allRecordLoop rest (okResult ++ [(key, v)]) errResult hasErr
  | (key, .Err e) :: rest, okResult, errResult, _ =>
      Result.allRecordLoop rest okResult (errResult ++ [(key, e)]) true

/-- `Result.all` (record overload): evaluates every entry, and returns
`Err(errResult)` when any entry failed, else `Ok(okResult)`. -/
def Result.allRecord {T E : Type} (results : List (String × Result T E)) :
    Result (List (String × T)) (List (String × E)) :=
  Result.allRecordLoop results [] [] false

/-- The loop of `Result.any`: returns the first `Ok` unchanged, collecting
the error payloads of the `Err` elements passed over. -/
def Result.anyLoop {T E : Type} : List (Result T E) → List E → Result T (List E)
  | [], errResult => .Err errResult
  | .Ok v :: _, _ => .Ok v
  | .Err e :: rest, errResult => Result.anyLoop rest (errResult ++ [e])

/-- `Result.any`: short-circuits with the first `Ok`; if none, wraps the
collected error payloads. -/
def Result.any {T E : Type} (results : List (Result T E)) : Result T (List E) :=
  Result.anyLoop results []

/-- A JavaScript promise, observed at settlement: fulfilled with a value or
rejected with a reason of type `ρ`. -/
inductive Promise (ρ α : Type) where
  | resolved : α → Promise ρ α
  | rejected : ρ → Promise ρ α
  deriving DecidableEq, Repr

/-- `Promise.prototype.then` with an async continuation: a rejection passes
through; a fulfilment value feeds the continuation, whose resulting promise
is adopted. -/
def Promise.then' {ρ α β : Type} (p : Promise ρ α) (f : α → Promise ρ β) : Promise ρ β :=
  match p with
  | .resolved v => f v
  | .rejected r => .rejected r

/-- `Result.wrap(op)`: `try \x7b return new Ok(op()) \x7d catch (e)
\x7b return new Err(e) \x7d`.  The fallible call `op()` is modelled by an
`Except` value. -/
def Result.wrap {ρ T : Type} (op : Except ρ T) : Result T ρ :=
  match op with
  | .ok v => .Ok v
  | .error e => .Err e

/-- `Result.wrapAsync(op)`: `op()` may throw synchronously (outer `Except`)
or return a promise; `.then` wraps a fulfilment in `Ok`, `.catch` wraps a
rejection in `Err`, and a synchronous throw becomes `Promise.resolve(Err e)`. -/
def Result.wrapAsync {ρ T : Type} (op : Except ρ (Promise ρ T)) : Promise ρ (Result T ρ) :=
  match op with
  | .error e => .resolved (.Err e)
  | .ok (.resolved v) => .resolved (.Ok v)
  | .ok (.rejected e) => .resolved (.Err e)

/-- The `AsyncResult<T, E>` class: holds the single pending computation
`promise` (the constructor's `Promise.resolve(start)` normalization maps a
plain `Result` start value to `Promise.resolved`). -/
structure AsyncResult (ρ T E : Type) where
  promise : Promise ρ (Result T E)
  deriving DecidableEq, Repr

/-- `AsyncResult.thenInternal(mapper)`: `new AsyncResult(this.promise.then(mapper))`. -/
def AsyncResult.thenInternal {ρ T E T2 E2 : Type} (a : AsyncResult ρ T E)
    (mapper : Result T E → Promise ρ (Result T2 E2)) : AsyncResult ρ T2 E2 :=
  ⟨a.promise.then' mapper⟩

/-- The union type `Result<T2, E2> | Promise<Result<T2, E2>> | AsyncResult<T2, E2>`
that an `AsyncResult.andThen` mapper may return. -/
inductive AndThenRet (ρ T2 E2 : Type) where
  | plain : Result T2 E2 → AndThenRet ρ T2 E2
  | promised : Promise ρ (Result T2 E2) → AndThenRet ρ T2 E2
  | wrapped : AsyncResult ρ T2 E2 → AndThenRet ρ T2 E2

/-- `AsyncResult.andThen(mapper)`.  The callback passed to `thenInternal` is
an `async` arrow function, so a synchronous throw inside it (the mapper's
`.error` outcome) becomes a rejected promise; an `Err` settled result is
returned unchanged without invoking the mapper; otherwise the mapper's
return value is adopted (`mapped instanceof AsyncResult ? mapped.promise :
mapped`). -/
def AsyncResult.andThen {ρ T E T2 : Type} (a : AsyncResult ρ T E)
    (mapper : T → Except ρ (AndThenRet ρ T2 E)) : AsyncResult ρ T2 E :=
  a.thenInternal fun result =>
    match result with
    | .Err e => .resolved (.Err e)
    | .Ok v =>
        match mapper v with
        | .error exc => .rejected exc
        | .ok (.plain r) => .resolved r
        | .ok (.promised p) => p
        | .ok (.wrapped ar) => ar.promise

/-- The union type `U | Promise<U>` that an `AsyncResult.map` mapper may
return. -/
inductive MapRet (ρ U : Type) where
  | plain : U → MapRet ρ U
  | promised : Promise ρ U → MapRet ρ U

/-- `AsyncResult.map(mapper)`: an `Err` settled result passes through; on
`Ok`, `Ok(await mapper(result.value))` — a synchronous throw in the mapper
or a rejection of its returned promise rejects the new pending computation. -/
def AsyncResult.map {ρ T E U : Type} (a : AsyncResult ρ T E)
    (mapper : T → Except ρ (MapRet ρ U)) : AsyncResult ρ U E :=
  a.thenInternal fun result =>
    match result with
    | .Err e => .resolved (.Err e)
    | .Ok v =>
        match mapper v with
        | .error exc => .rejected exc
        | .ok (.plain u) => .resolved (.Ok u)
        | .ok (.promised p) => p.then' fun u => .resolved (.Ok u)

/-- The entries of a record of results whose values are `Err`, each mapped to
its error payload (specification-side helper). -/
def errEntries {T E : Type} (r : List (String × Result T E)) : List (String × E) :=
  r.filterMap fun p =>
    match p.2 with
    | .Err e => some (p.1, e)
    | .Ok _ => none

/-- The entries of a record of results whose values are `Ok`, each mapped to
its success payload (specification-side helper). -/
def okEntries {T E : Type} (r : List (String × Result T E)) : List (String × T) :=
  r.filterMap fun p =>
    match p.2 with
    | .Ok v => some (p.1, v)
    | .Err _ => none

/-- The success payloads of the `Ok` elements of a list of results, in order
(specification-side helper). -/
def okPayloads {T E : Type} (rs : List (Result T E)) : List T :=
  rs.filterMap fun r =>
    match r with
    | .Ok v => some v
    | .Err _ => none

/-- The error payloads of the `Err` elements of a list of results, in order
(specification-side helper). -/
def errPayloads {T E : Type} (rs : List (Result T E)) : List E :=
  rs.filterMap fun r =>
    match r with
    | .Ok _ => none
    | .Err e => some e

/-- `allLoop` with only `Ok` elements left collects every payload in order
onto the accumulator. -/
lemma allLoop_ok {T E : Type} :
    ∀ (l : List (Result T E)) (acc : List T), (∀ r ∈ l, r.isOk = true) →
      Result.allLoop l acc = .Ok (acc ++ okPayloads l) := by
  intro l
  induction l with
  | nil => intro acc _; simp [Result.allLoop, okPayloads]
  | cons head tail ih =>
    intro acc h
    cases head with
    | Ok v =>
        have htail : ∀ r ∈ tail, r.isOk = true := fun r hr => h r (List.mem_cons_of_mem _ hr)
        simp [Result.allLoop, okPayloads, List.filterMap_cons, ih (acc ++ [v]) htail]
    | Err e =>
        have := h (.Err e) (List.mem_cons_self _ _)
        simp [Result.isOk] at this

/-- `allLoop` short-circuits: an `Err` after a prefix of `Ok`s is returned
unchanged, whatever follows it. -/
lemma allLoop_shortCircuit {T E : Type} :
    ∀ (pre : List (Result T E)) (e : E) (post : List (Result T E)) (acc : List T),
      (∀ r ∈ pre, r.isOk = true) →
      Result.allLoop (pre ++ .Err e :: post) acc = .Err e := by
  intro pre
  induction pre with
  | nil => intro e post acc _; simp [Result.allLoop]
  | cons head tail ih =>
    intro e post acc h
    cases head with
    | Ok v =>
        have htail : ∀ r ∈ tail, r.isOk = true := fun r hr => h r (List.mem_cons_of_mem _ hr)
        simp [Result.allLoop, ih e post (acc ++ [v]) htail]
    | Err e' =>
        have := h (.Err e') (List.mem_cons_self _ _)
        simp [Result.isOk] at this

/-- `anyLoop` with only `Err` elements left collects every error payload in
order onto the accumulator. -/
lemma anyLoop_err {T E : Type} :
    ∀ (l : List (Result T E)) (acc : List E), (∀ r ∈ l, r.isErr = true) →
      Result.anyLoop l acc = .Err (acc ++ errPayloads l) := by
  intro l
  induction l with
  | nil => intro acc _; simp [Result.anyLoop, errPayloads]
  | cons head tail ih =>
    intro acc h
    cases head with
    | Err e =>
        have htail : ∀ r ∈ tail, r.isErr = true := fun r hr => h r (List.mem_cons_of_mem _ hr)
        simp [Result.anyLoop, errPayloads, List.filterMap_cons, ih (acc ++ [e]) htail]
    | Ok v =>
        have := h (.Ok v) (List.mem_cons_self _ _)
        simp [Result.isErr] at this

/-- `anyLoop` short-circuits: an `Ok` after a prefix of `Err`s is returned
unchanged, whatever follows it. -/
lemma anyLoop_shortCircuit {T E : Type} :
    ∀ (pre : List (Result T E)) (v : T) (post : List (Result T E)) (acc : List E),
      (∀ r ∈ pre, r.isErr = true) →
      Result.anyLoop (pre ++ .Ok v :: post) acc = .Ok v := by
  intro pre
  induction pre with
  | nil => intro v post acc _; simp [Result.anyLoop]
  | cons head tail ih =>
    intro v post acc h
    cases head with
    | Err e =>
        have htail : ∀ r ∈ tail, r.isErr = true := fun r hr => h r (List.mem_cons_of_mem _ hr)
        simp [Result.anyLoop, ih v post (acc ++ [e]) htail]
    | Ok v' =>
        have := h (.Ok v') (List.mem_cons_self _ _)
        simp [Result.isErr] at this

/-- `allRecordLoop` in terms of its accumulators: it returns `Err` of all
error entries when `hasErr` is set or any remaining entry fails, else `Ok`
of all success entries. -/
lemma allRecordLoop_spec {T E : Type} :
    ∀ (l : List (String × Result T E)) (okAcc : List (String × T))
      (errAcc : List (String × E)) (hasErr : Bool),
      Result.allRecordLoop l okAcc errAcc hasErr =
        if hasErr || l.any fun p => (p.2).isErr then .Err (errAcc ++ errEntries l)
        else .Ok (okAcc ++ okEntries l) := by
  intro l
  induction l with
  | nil =>
    intro okAcc errAcc hasErr
    cases hasErr <;> simp [Result.allRecordLoop, errEntries, okEntries]
  | cons head tail ih =>
    intro okAcc errAcc hasErr
    obtain ⟨key, r⟩ := head
    cases r with
    | Ok v =>
        rw [Result.allRecordLoop, ih, List.any_cons]
        cases hasErr <;> cases htail : (tail.any fun p => (p.2).isErr) <;>
          simp [htail, Result.isErr, errEntries, okEntries, List.filterMap_cons]
    | Err e =>
        rw [Result.allRecordLoop, ih, List.any_cons]
        cases hasErr <;> cases htail : (tail.any fun p => (p.2).isErr) <;>
          simp [htail, Result.isErr, errEntries, okEntries, List.filterMap_cons]

/-- When every entry of a record succeeds, `okEntries` keeps every key. -/
lemma okEntries_keys {T E : Type} :
    ∀ l : List (String × Result T E), (∀ p ∈ l, (p.2).isOk = true) →
      (okEntries l).map Prod.fst = l.map Prod.fst := by
  intro l
  induction l with
  | nil => intro _; simp [okEntries]
  | cons head tail ih =>
    intro h
    obtain ⟨key, r⟩ := head
    cases r with
    | Ok v =>
        have htail : ∀ p ∈ tail, (p.2).isOk = true := fun p hp => h p (List.mem_cons_of_mem _ hp)
        simpa [okEntries, List.filterMap_cons] using ih htail
    | Err e =>
        have := h (key, .Err e) (List.mem_cons_self _ _)
        simp [Result.isOk] at this

/-- Claim C1: the record overload of `Result.all` evaluates every entry: it
returns `Err` of exactly the failing keys mapped to their error payloads
when any entry is `Err`, else `Ok` mapping every key to its success payload
(when all entries are `Ok`, the success record keeps every key in order). -/
theorem result_allRecord_spec (T E : Type) (r : List (String × Result T E)) :
    (Result.allRecord r =
      if r.any fun p => (p.2).isErr then .Err (errEntries r) else .Ok (okEntries r))
    ∧ ((∀ p ∈ r, (p.2).isOk = true) → (okEntries r).map Prod.fst = r.map Prod.fst) := by
  constructor
  · simpa [Result.allRecord] using allRecordLoop_spec r [] [] false
  · exact okEntries_keys r

/-- Claim C1 witness: evaluating `result_allRecord_spec` on the two-entry
record with one failing entry. -/
theorem result_allRecord_spec_witness :
    (Result.allRecord [("name", Result.Ok 1), ("age", (Result.Err "bad" : Result Nat String))]
        = if ([("name", Result.Ok 1), ("age", (Result.Err "bad" : Result Nat String))].any
            fun p => (p.2).isErr)
          then .Err (errEntries [("name", Result.Ok 1), ("age", Result.Err "bad")])
          else .Ok (okEntries [("name", Result.Ok 1), ("age", Result.Err "bad")]))
    ∧ (okEntries [("name", (Result.Ok 1 : Result Nat String))]).map Prod.fst
        = [("name", (Result.Ok 1 : Result Nat String))].map Prod.fst :=
  ⟨(result_allRecord_spec Nat String [("name", .Ok 1), ("age", .Err "bad")]).1,
   (result_allRecord_spec Nat String [("name", .Ok 1)]).2 (by decide)⟩

/-- Claim C2: the array overload of `Result.all` returns `Ok([])` on the
empty array, `Ok` of all payloads in order when no element is `Err`, and the
first `Err` element unchanged otherwise — elements after it are not
examined (the result does not depend on them). -/
theorem result_all_spec (T E : Type) :
    (Result.all ([] : List (Result T E)) = .Ok [])
    ∧ (∀ rs : List (Result T E), (∀ r ∈ rs, r.isOk = true) →
        Result.all rs = .Ok (okPayloads rs))
    ∧ (∀ (pre post : List (Result T E)) (e : E), (∀ r ∈ pre, r.isOk = true) →
        Result.all (pre ++ .Err e :: post) = .Err e) := by
  refine ⟨rfl, fun rs h => ?_, fun pre post e h => ?_⟩
  · simpa [Result.all] using allLoop_ok rs [] h
  · simpa [Result.all] using allLoop_shortCircuit pre e post [] h

/-- Claim C2 witness: `Result.all [Ok 1, Err "x", Ok 2] = Err "x"` and
`Result.all [Ok 1, Ok 2] = Ok [1, 2]`, via `result_all_spec`. -/
theorem result_all_spec_witness :
    Result.all [Result.Ok 1, (Result.Err "x" : Result Nat String), Result.Ok 2]
      = Result.Err "x"
    ∧ Result.all [Result.Ok 1, (Result.Ok 2 : Result Nat String)]
      = Result.Ok (okPayloads [Result.Ok 1, (Result.Ok 2 : Result Nat String)]) :=
  ⟨(result_all_spec Nat String).2.2 [.Ok 1] [.Ok 2] "x" (by decide),
   (result_all_spec Nat String).2.1 [.Ok 1, .Ok 2] (by decide)⟩

/-- Claim C3: `Result.any` returns the first `Ok` element unchanged when one
exists — elements after it are not examined (the result does not depend on
them) — and `Err` of every error payload in input order when every element
is `Err`. -/
theorem result_any_spec (T E : Type) :
    (∀ (pre post : List (Result T E)) (v : T), (∀ r ∈ pre, r.isErr = true) →
        Result.any (pre ++ .Ok v :: post) = .Ok v)
    ∧ (∀ rs : List (Result T E), (∀ r ∈ rs, r.isErr = true) →
        Result.any rs = .Err (errPayloads rs)) := by
  refine ⟨fun pre post v h => ?_, fun rs h => ?_⟩
  · simpa [Result.any] using anyLoop_shortCircuit pre v post [] h
  · simpa [Result.any] using anyLoop_err rs [] h

/-- Claim C3 witness: `Result.any [Err "a", Err "b", Ok 3, Err "c"] = Ok 3`
and `Result.any [Err "a", Err "b"] = Err ["a", "b"]`, via `result_any_spec`. -/
theorem result_any_spec_witness :
    Result.any [Result.Err "a", Result.Err "b", (Result.Ok 3 : Result Nat String),
        Result.Err "c"] = Result.Ok 3
    ∧ Result.any [(Result.Err "a" : Result Nat String), Result.Err "b"]
      = Result.Err (errPayloads [(Result.Err "a" : Result Nat String), Result.Err "b"]) :=
  ⟨(result_any_spec Nat String).1 [.Err "a", .Err "b"] [.Err "c"] 3 (by decide),
   (result_any_spec Nat String).2 [.Err "a", .Err "b"] (by decide)⟩

/-- Claim C5: an `AsyncResult` settled to `Err(e)` passes through `andThen`
and `map` unchanged for every mapper (so the mapper is never invoked); one
settled to `Ok(v)` adopts the mapper's result in each of its three shapes —
a plain `Result`, a promise of one, or another `AsyncResult`. -/
theorem asyncResult_andThen_spec (ρ T E T2 : Type) :
    (∀ (e : E) (fn : T → Except ρ (AndThenRet ρ T2 E)),
      (AsyncResult.mk (.resolved (.Err e)) : AsyncResult ρ T E).andThen fn
        = AsyncResult.mk (.resolved (.Err e)))
    ∧ (∀ (e : E) (fn : T → Except ρ (MapRet ρ T2)),
      (AsyncResult.mk (.resolved (.Err e)) : AsyncResult ρ T E).map fn
        = AsyncResult.mk (.resolved (.Err e)))
    ∧ (∀ (v : T) (fn : T → Except ρ (AndThenRet ρ T2 E)) (res : Result T2 E),
      fn v = .ok (.plain res) →
      (AsyncResult.mk (.resolved (.Ok v)) : AsyncResult ρ T E).andThen fn
        = AsyncResult.mk (.resolved res))
    ∧ (∀ (v : T) (fn : T → Except ρ (AndThenRet ρ T2 E)) (p : Promise ρ (Result T2 E)),
      fn v = .ok (.promised p) →
      (AsyncResult.mk (.resolved (.Ok v)) : AsyncResult ρ T E).andThen fn
        = AsyncResult.mk p)
    ∧ (∀ (v : T) (fn : T → Except ρ (AndThenRet ρ T2 E)) (ar : AsyncResult ρ T2 E),
      fn v = .ok (.wrapped ar) →
      (AsyncResult.mk (.resolved (.Ok v)) : AsyncResult ρ T E).andThen fn
        = AsyncResult.mk ar.promise) := by
  refine ⟨fun e fn => rfl, fun e fn => rfl, fun v fn res h => ?_, fun v fn p h => ?_,
    fun v fn ar h => ?_⟩ <;>
    simp [AsyncResult.andThen, AsyncResult.thenInternal, Promise.then', h]

/-- Claim C5 witness: `await Ok(1).toAsyncResult().andThen(v => Ok(v * 2))`
is `Ok(2)` and an `Err("e")` start passes through `andThen` unchanged, via
`asyncResult_andThen_spec`. -/
theorem asyncResult_andThen_spec_witness :
    (AsyncResult.mk (.resolved (.Ok 1)) : AsyncResult String Nat String).andThen
        (fun v => .ok (.plain (.Ok (v * 2)))) = AsyncResult.mk (.resolved (.Ok 2))
    ∧ (AsyncResult.mk (.resolved (.Err "e")) : AsyncResult String Nat String).andThen
          (fun _ => (.ok (.plain (.Err "never")) : Except String (AndThenRet String Nat String)))
        = AsyncResult.mk (.resolved (.Err "e")) :=
  ⟨(asyncResult_andThen_spec String Nat String Nat).2.2.1 1 _ (.Ok 2) rfl,
   (asyncResult_andThen_spec String Nat String Nat).1 "e" _⟩

/-- Claim C6: when an `AsyncResult` is settled to `Ok(v)` and the mapper
passed to `andThen` or `map` throws synchronously, the combinator still
produces a wrapper (it is a total function here, mirroring that no exception
escapes the call), and the thrown value surfaces as a rejection of the new
wrapper's pending computation. -/
theorem asyncResult_syncThrow_spec (ρ T E T2 : Type) :
    (∀ (v : T) (exc : ρ) (fn : T → Except ρ (AndThenRet ρ T2 E)),
      fn v = .error exc →
      ((AsyncResult.mk (.resolved (.Ok v)) : AsyncResult ρ T E).andThen fn).promise
        = .rejected exc)
    ∧ (∀ (v : T) (exc : ρ) (fn : T → Except ρ (MapRet ρ T2)),
      fn v = .error exc →
      ((AsyncResult.mk (.resolved (.Ok v)) : AsyncResult ρ T E).map fn).promise
        = .rejected exc) := by
  refine ⟨fun v exc fn h => ?_, fun v exc fn h => ?_⟩ <;>
    simp [AsyncResult.andThen, AsyncResult.map, AsyncResult.thenInternal, Promise.then', h]

/-- Claim C6 witness: a mapper that throws `"boom"` on `Ok(1)` turns into a
rejection of the resulting wrapper's pending computation, for both `andThen`
and `map`, via `asyncResult_syncThrow_spec`. -/
theorem asyncResult_syncThrow_spec_witness :
    ((AsyncResult.mk (.resolved (.Ok 1)) : AsyncResult String Nat String).andThen
        (fun _ => (.error "boom" : Except String (AndThenRet String Nat String)))).promise
      = .rejected "boom"
    ∧ ((AsyncResult.mk (.resolved (.Ok 1)) : AsyncResult String Nat String).map
        (fun _ => (.error "boom" : Except String (MapRet String Nat)))).promise
      = .rejected "boom" :=
  ⟨(asyncResult_syncThrow_spec String Nat String Nat).1 1 "boom" _ rfl,
   (asyncResult_syncThrow_spec String Nat String Nat).2 1 "boom" _ rfl⟩

/-- Claim C4: `unwrap()` on `Ok(v)` returns `v` and on `Err(e)` throws an
error with cause `e`; `unwrapErr()` on `Err(e)` returns `e` and on `Ok(v)`
throws an error with cause `v`; in each case the other variant does not
throw. -/
theorem result_unwrap_spec (T E : Type) :
    (∀ v : T, (Result.Ok v : Result T E).unwrap = .ok v)
    ∧ (∀ e : E, (Result.Err e : Result T E).unwrap = .error ⟨e⟩)
    ∧ (∀ e : E, (Result.Err e : Result T E).unwrapErr = .ok e)
    ∧ (∀ v : T, (Result.Ok v : Result T E).unwrapErr = .error ⟨v⟩) :=
  ⟨fun _ => rfl, fun _ => rfl, fun _ => rfl, fun _ => rfl⟩

/-- Claim C7: `Result.wrap` returns `Ok` of a normal completion and `Err` of
a thrown value as-is; `Result.wrapAsync` resolves to `Ok` of a fulfilment,
`Err` of a rejection reason, and converts a synchronous throw into a
resolved `Err` of the thrown value. -/
theorem result_wrap_spec (ρ T : Type) :
    (∀ v : T, Result.wrap (.ok v : Except ρ T) = .Ok v)
    ∧ (∀ e : ρ, Result.wrap (.error e : Except ρ T) = .Err e)
    ∧ (∀ v : T, Result.wrapAsync (.ok (.resolved v) : Except ρ (Promise ρ T))
        = .resolved (.Ok v))
    ∧ (∀ e : ρ, Result.wrapAsync (.ok (.rejected e) : Except ρ (Promise ρ T))
        = .resolved (.Err e))
    ∧ (∀ e : ρ, Result.wrapAsync (.error e : Except ρ (Promise ρ T))
        = .resolved (.Err e)) :=
  ⟨fun _ => rfl, fun _ => rfl, fun _ => rfl, fun _ => rfl, fun _ => rfl⟩

/-- Claim C8: `map` satisfies functor composition — `c.map(f).map(g)` equals
`c.map(x => g(f(x)))` — and `map` on an `Err` returns it unchanged with the
same error payload, never invoking the mapper. -/
theorem result_map_spec (T U V E : Type) :
    (∀ (c : Result T E) (f : T → U) (g : U → V),
      (c.map f).map g = c.map fun x => g (f x))
    ∧ (∀ (e : E) (f : T → U), (Result.Err e : Result T E).map f = .Err e) := by
  refine ⟨fun c f g => ?_, fun e f => rfl⟩
  cases c <;> rfl

/-- Claim C9: `Ok(v).toOption()` is `Some(v)` so `Ok(v).toOption().toResult(e)`
round-trips to `Ok(v)`; `Err(e).toOption()` is `None` (payload discarded);
`None.toResult(e2)` is `Err(e2)`. -/
theorem result_toOption_roundTrip (T E E2 : Type) :
    (∀ v : T, (Result.Ok v : Result T E).toOption = .Some v)
    ∧ (∀ (v : T) (e : E2), ((Result.Ok v : Result T E).toOption).toResult e = .Ok v)
    ∧ (∀ e : E, (Result.Err e : Result T E).toOption = .None)
    ∧ (∀ e2 : E2, (Option.None : Option T).toResult e2 = .Err e2) :=
  ⟨fun _ => rfl, fun _ _ => rfl, fun _ => rfl, fun _ => rfl⟩

/-- Claim C10: `Result.any` on the empty array returns `Err([])` — the
all-failed branch holds vacuously for zero inputs. -/
theorem result_any_empty (T E : Type) :
    Result.any ([] : List (Result T E)) = .Err [] := rfl

end TS
